import Mathlib

/-!
Verification of the lexical annotation pipeline of `generate_index.py`
(repository `pguyot/subtitled_podcasts`).

The development shallowly embeds the pipeline functions of the script:

* the segmenter (the `re.split` over paragraph tags inside
  `translate_words_with_mistral`),
* the span mapper `wrap_words_in_spans`,
* the prompt construction, cache key and cache access of
  `translate_paragraph_with_mistral`,
* the retry/degrade loop of `translate_paragraph_with_mistral`
  (the external model call is scripted by an oracle of attempt outcomes),
* the identifier-rewriting loop of `translate_words_with_mistral`.

Strings are embedded as `List Char`; Python dicts as association lists
(`dictSet` reproduces insert-or-overwrite with insertion order); fallible
dict subscription as `Except` (the error value is the missing key, like
`KeyError`).
-/

namespace GenIndex

set_option maxHeartbeats 1600000
set_option maxRecDepth 8000

/-- Python strings are modelled as lists of characters. -/
abbrev Str := List Char

/-- The character class of the regex `\w` (word characters), modelled as
alphanumeric or underscore. -/
def isWordChar (c : Char) : Bool := c.isAlphanum || c = '_'

/-! ## Tokenization: the scan of `re.finditer(r'\b(\w+)\b', text)`

`re.finditer(r'\b(\w+)\b', text)` enumerates the maximal runs of word
characters of `text`.  `tokenize` splits a string into its maximal runs,
each tagged with whether it is a run of word characters; the word runs are
exactly the regex matches and the other runs are the stretches of text
between the matches that `wrap_words_in_spans` copies verbatim. -/

/-- Accumulating worker for `tokenize`: `cur` is the reversed current run,
`b` its word/non-word tag. -/
def tokenizeAux (b : Bool) (cur : Str) : Str → List (Bool × Str)
  | [] => [(b, cur.reverse)]
  | c :: cs =>
    if isWordChar c = b then tokenizeAux b (c :: cur) cs
    else (b, cur.reverse) :: tokenizeAux (isWordChar c) [c] cs

/-- Split a string into its maximal runs of word / non-word characters. -/
def tokenize : Str → List (Bool × Str)
  | [] => []
  | c :: cs => tokenizeAux (isWordChar c) [c] cs

theorem tokenizeAux_join (s : Str) : ∀ (b : Bool) (cur : Str),
    ((tokenizeAux b cur s).map Prod.snd).flatten = cur.reverse ++ s := by
  induction s with
  | nil => intro b cur; simp [tokenizeAux]
  | cons c cs ih =>
    intro b cur
    by_cases h : isWordChar c = b
    · simp [tokenizeAux, h, ih]
    · simp [tokenizeAux, h, ih]

/-- Concatenating the runs of `tokenize` restores the input. -/
theorem tokenize_join (s : Str) : ((tokenize s).map Prod.snd).flatten = s := by
  cases s with
  | nil => rfl
  | cons c cs => simp [tokenize, tokenizeAux_join]

/-- The word tokens of a string: `re.findall(r'\b\w+\b', text)`. -/
def wordTokens (s : Str) : List Str :=
  (tokenize s).filterMap (fun t => if t.1 then some t.2 else none)

/-! ## The segmenter

`translate_words_with_mistral` splits the transcript markup with
`re.split(r'(<p>|</p>|<br\s*/?>|<strong>|</strong>)', text, flags=re.IGNORECASE)`.
With the whole pattern inside one capturing group, `re.split` returns the
stretches of text between delimiter matches (possibly empty) interleaved, in
order, with the matched delimiters themselves. -/

/-- Case-insensitive literal match at the head of `s` (the pattern is given
in lowercase); returns the length of the match. -/
def matchLit (pat s : Str) : Option Nat :=
  if (s.take pat.length).map Char.toLower = pat then some pat.length else none

/-- Match of the alternative `<br\s*/?>` at the head of `s` (with
`re.IGNORECASE`); returns the length of the match. -/
def matchBr (s : Str) : Option Nat :=
  match matchLit "<br".data s with
  | none => none
  | some _ =>
    let rest := s.drop 3
    let wn := (rest.takeWhile Char.isWhitespace).length
    match rest.drop wn with
    | '/' :: '>' :: _ => some (3 + wn + 2)
    | '>' :: _ => some (3 + wn + 1)
    | _ => none

/-- Match of the delimiter pattern `<p>|</p>|<br\s*/?>|<strong>|</strong>`
at the head of `s`; returns the length of the match (the alternatives are
tried in the order of the regex). -/
def matchDelim (s : Str) : Option Nat :=
  match matchLit "<p>".data s with
  | some n => some n
  | none =>
  match matchLit "</p>".data s with
  | some n => some n
  | none =>
  match matchBr s with
  | some n => some n
  | none =>
  match matchLit "<strong>".data s with
  | some n => some n
  | none => matchLit "</strong>".data s

theorem matchLit_spec {pat s : Str} {n : Nat} (h : matchLit pat s = some n) :
    n = pat.length ∧ pat.length ≤ s.length := by
  unfold matchLit at h
  split at h
  · rename_i heq
    cases h
    refine ⟨rfl, ?_⟩
    have hlen := congrArg List.length heq
    simp [List.length_take] at hlen
    omega
  · exact absurd h (by simp)

theorem matchBr_spec {s : Str} {n : Nat} (h : matchBr s = some n) :
    0 < n ∧ n ≤ s.length := by
  unfold matchBr at h
  cases hlit : matchLit "<br".data s with
  | none => rw [hlit] at h; exact absurd h (by simp)
  | some m =>
    rw [hlit] at h
    have h3 : 3 ≤ s.length := by
      have := (matchLit_spec hlit).2
      simpa using this
    simp only at h
    have hwn : (List.takeWhile Char.isWhitespace (s.drop 3)).length ≤ (s.drop 3).length :=
      (List.takeWhile_sublist _).length_le
    have hdl : (s.drop 3).length = s.length - 3 := List.length_drop 3 s
    split at h
    · rename_i tl heq
      cases h
      have := congrArg List.length heq
      simp [List.length_drop] at this
      omega
    · rename_i tl heq
      cases h
      have := congrArg List.length heq
      simp [List.length_drop] at this
      omega
    · exact absurd h (by simp)

theorem matchDelim_spec {s : Str} {n : Nat} (h : matchDelim s = some n) :
    0 < n ∧ n ≤ s.length := by
  unfold matchDelim at h
  cases h1 : matchLit "<p>".data s with
  | some m =>
    rw [h1] at h; cases h
    have := matchLit_spec h1; simp at this; omega
  | none =>
  rw [h1] at h
  cases h2 : matchLit "</p>".data s with
  | some m =>
    rw [h2] at h; cases h
    have := matchLit_spec h2; simp at this; omega
  | none =>
  rw [h2] at h
  cases h3 : matchBr s with
  | some m =>
    rw [h3] at h; cases h
    exact matchBr_spec h3
  | none =>
  rw [h3] at h
  cases h4 : matchLit "<strong>".data s with
  | some m =>
    rw [h4] at h; cases h
    have := matchLit_spec h4; simp at this; omega
  | none =>
  rw [h4] at h
  have := matchLit_spec h; simp at this; omega

/-- Worker for the segmenter: `pend` holds (reversed) the text scanned since
the last delimiter; at each position the delimiter pattern is tried, emitting
the pending stretch and the matched delimiter on a hit, exactly as `re.split`
with a capturing group does (empty stretches included). -/
def reSplitAux : Str → Str → List Str
  | pend, [] => [pend.reverse]
  | pend, c :: cs =>
    match hm : matchDelim (c :: cs) with
    | some n => pend.reverse :: (c :: cs).take n :: reSplitAux [] ((c :: cs).drop n)
    | none => reSplitAux (c :: pend) cs
termination_by _ s => s.length
decreasing_by
  · have h1 := (matchDelim_spec hm).1
    simp [List.length_drop]
    omega
  · simp

/-- The segmenter: `re.split(r'(<p>|</p>|<br\s*/?>|<strong>|</strong>)',
text, flags=re.IGNORECASE)`, delimiters captured into the output. -/
def re_split_tags (s : Str) : List Str := reSplitAux [] s

theorem reSplitAux_join (pend s : Str) :
    (reSplitAux pend s).flatten = pend.reverse ++ s := by
  induction pend, s using reSplitAux.induct with
  | case1 pend => simp [reSplitAux]
  | case2 pend c cs n hm ih =>
    rw [reSplitAux, hm]
    simp only [List.flatten_cons, List.reverse_nil, List.nil_append] at ih ⊢
    rw [ih, List.take_append_drop]
  | case3 pend c cs hm ih =>
    rw [reSplitAux, hm]
    simp [ih]

/-- C2: the segmenter is a total function of the raw markup (it is defined
on every input string, never rejecting malformed markup), and concatenating
its output segments — delimiter tags and prose stretches alike, in order —
reproduces the input exactly. -/
theorem C2_segmenter_round_trip (s : Str) : (re_split_tags s).flatten = s := by
  simpa using reSplitAux_join [] s

/-! ## Python dictionaries -/

/-- Candidate dicts (elements of the `translations` list) are string-to-string
association lists in insertion order. -/
abbrev PyDict := List (Str × Str)

/-- Lookup in an association list (first binding wins, as in a Python dict
where keys are unique). -/
def alookup {V : Type} (k : Str) : List (Str × V) → Option V
  | [] => none
  | (k2, v) :: rest => if k2 = k then some v else alookup k rest

/-- `t[k]` on a Python dict: raises `KeyError k` when the key is absent. -/
def pyGet (t : PyDict) (k : Str) : Except Str Str :=
  match alookup k t with
  | some v => Except.ok v
  | none => Except.error k

/-- `t.get(k, dflt)` on a Python dict. -/
def pyGetD (t : PyDict) (k dflt : Str) : Str := (alookup k t).getD dflt

/-- `d[k] = v` on a Python dict: overwrite in place when the key exists,
append a fresh key at the end otherwise. -/
def dictSet {V : Type} (k : Str) (v : V) : List (Str × V) → List (Str × V)
  | [] => [(k, v)]
  | (k2, v2) :: rest => if k2 = k then (k, v) :: rest else (k2, v2) :: dictSet k v rest

theorem alookup_dictSet_self {V : Type} (k : Str) (v : V) (d : List (Str × V)) :
    alookup k (dictSet k v d) = some v := by
  induction d with
  | nil => simp [dictSet, alookup]
  | cons p rest ih =>
    obtain ⟨k2, v2⟩ := p
    by_cases h : k2 = k
    · simp [dictSet, h, alookup]
    · simp [dictSet, h, alookup, ih]

theorem alookup_dictSet_ne {V : Type} {k k2 : Str} (h : k ≠ k2) (v : V) (d : List (Str × V)) :
    alookup k (dictSet k2 v d) = alookup k d := by
  induction d with
  | nil => simp [dictSet, alookup, Ne.symm h]
  | cons p rest ih =>
    obtain ⟨k3, v3⟩ := p
    by_cases h2 : k3 = k2
    · subst h2
      simp [dictSet, alookup, Ne.symm h]
    · by_cases h3 : k3 = k
      · simp [dictSet, h2, alookup, h3, h]
      · simp [dictSet, h2, alookup, h3, h, ih]

/-! ## Decimal rendering of numbers

`str(i)` on a non-negative Python int prints the decimal digits.  The fuel
argument of the worker only forces termination; `n + 1` is always enough. -/

def natStrAux : Nat → Nat → Str
  | 0, _ => []
  | fuel + 1, n =>
    if n < 10 then [Char.ofNat (48 + n)]
    else natStrAux fuel (n / 10) ++ [Char.ofNat (48 + n % 10)]

/-- `str(n)` for a natural number. -/
def natStr (n : Nat) : Str := natStrAux (n + 1) n

/-! ## The span mapper: `wrap_words_in_spans` (lines 815-869) -/

def wordKey : Str := "word".data
def grammarKey : Str := "grammar".data
def translationKey : Str := "translation".data

/-- One element of the `result_parts` list that `wrap_words_in_spans` joins:
either a verbatim stretch of the input text, or a word occurrence wrapped in
a span carrying `data-word-id` equal to the candidate index.  `renderPart`
produces the exact string form; `stripPart` drops the inserted markers. -/
inductive HtmlPart where
  | orig : Str → HtmlPart
  | wrapped : Nat → Str → HtmlPart
deriving DecidableEq

/-- Single-quote character (written by code point to keep sources plain). -/
def sq : Char := Char.ofNat 39

/-- Double-quote character. -/
def dq : Char := Char.ofNat 34

/-- The f-string of line 855:
span opening tag with the id, the word, the closing tag. -/
def renderPart : HtmlPart → Str
  | HtmlPart.orig s => s
  | HtmlPart.wrapped i w =>
    "<span class=".data ++ [sq] ++ "word".data ++ [sq] ++ " data-word-id=".data
      ++ [sq] ++ natStr i ++ [sq] ++ ">".data ++ w ++ "</span>".data

/-- `''.join(result_parts)`. -/
def render (ps : List HtmlPart) : Str := (ps.map renderPart).flatten

/-- Strip the inserted span markers from the parts: keep the verbatim
stretches and the bare wrapped words, drop the inserted markup. -/
def stripPart : HtmlPart → Str
  | HtmlPart.orig s => s
  | HtmlPart.wrapped _ w => w

def stripParts (ps : List HtmlPart) : Str := (ps.map stripPart).flatten

/-- Lines 824-826: append index `i` to the group of word `w` in
`words_to_wrap` (creating the group when the word is new). -/
def addIdx (w : Str) (i : Nat) : List (Str × List Nat) → List (Str × List Nat)
  | [] => [(w, [i])]
  | (k, l) :: rest => if k = w then (k, l ++ [i]) :: rest else (k, l) :: addIdx w i rest

/-- Lines 821-826: build `words_to_wrap`, mapping each candidate word to the
indices of its candidates in list order; `t["word"]` raises `KeyError` when
a candidate dict lacks the key. -/
def buildWordsToWrap : List PyDict → Nat → List (Str × List Nat) →
    Except Str (List (Str × List Nat))
  | [], _, m => Except.ok m
  | t :: rest, i, m =>
    match pyGet t wordKey with
    | Except.error e => Except.error e
    | Except.ok w => buildWordsToWrap rest (i + 1) (addIdx w i m)

/-- Lines 829-867: the left-to-right scan over the tokens.  One part is
emitted per token: stretches of non-word characters verbatim, and each word
token wrapped exactly when its per-word occurrence counter is still below
the size of its candidate group (the counter advances only on a wrap). -/
def wrapScan (wtw : List (Str × List Nat)) :
    List (Bool × Str) → List (Str × Nat) → List HtmlPart
  | [], _ => []
  | (b, s) :: toks, ctr =>
    if b then
      match alookup s wtw with
      | some idxs =>
        let occ := (alookup s ctr).getD 0
        if h : occ < idxs.length then
          HtmlPart.wrapped (idxs.get ⟨occ, h⟩) s :: wrapScan wtw toks (dictSet s (occ + 1) ctr)
        else
          HtmlPart.orig s :: wrapScan wtw toks ctr
      | none => HtmlPart.orig s :: wrapScan wtw toks ctr
    else
      HtmlPart.orig s :: wrapScan wtw toks ctr

/-- `wrap_words_in_spans(text, translations)` (lines 815-869), producing the
`result_parts` list; `Except.error k` models the `KeyError` raised when a
candidate dict lacks the `word` key. -/
def wrap_words_in_spans (text : Str) (translations : List PyDict) :
    Except Str (List HtmlPart) :=
  match buildWordsToWrap translations 0 [] with
  | Except.error e => Except.error e
  | Except.ok wtw => Except.ok (wrapScan wtw (tokenize text) [])

theorem wrapScan_strip (wtw : List (Str × List Nat)) (toks : List (Bool × Str)) :
    ∀ ctr, stripParts (wrapScan wtw toks ctr) = (toks.map Prod.snd).flatten := by
  induction toks with
  | nil => intro ctr; simp [wrapScan, stripParts]
  | cons t toks ih =>
    intro ctr
    obtain ⟨b, s⟩ := t
    have ih2 : ∀ c2, (List.map stripPart (wrapScan wtw toks c2)).flatten
        = (List.map Prod.snd toks).flatten := by
      intro c2; simpa [stripParts] using ih c2
    cases b with
    | false => simp [wrapScan, stripParts, stripPart, ih2]
    | true =>
      cases halk : alookup s wtw with
      | none =>
        simp only [wrapScan, halk]
        simp [stripParts, stripPart, ih2]
      | some idxs =>
        by_cases h : (alookup s ctr).getD 0 < idxs.length
        · simp only [wrapScan, halk]
          rw [dif_pos h]
          simp [stripParts, stripPart, ih2]
        · simp only [wrapScan, halk]
          rw [dif_neg h]
          simp [stripParts, stripPart, ih2]

/-- C1: for every prose segment text and every candidate list, the output of
the span mapper is the input text with only span markers inserted around
matched occurrences: stripping all inserted markers from the parts produced
by `wrap_words_in_spans` reproduces the input text character for character. -/
theorem C1_wrapping_non_destructive (text : Str) (translations : List PyDict)
    (parts : List HtmlPart)
    (h : wrap_words_in_spans text translations = Except.ok parts) :
    stripParts parts = text := by
  unfold wrap_words_in_spans at h
  cases hb : buildWordsToWrap translations 0 [] with
  | error e => rw [hb] at h; exact absurd h (by simp)
  | ok wtw =>
    rw [hb] at h
    injection h with h
    subst h
    rw [wrapScan_strip, tokenize_join]

/-- Closed witness for C1 at a concrete segment and candidate list. -/
theorem C1_witness :
    stripParts [HtmlPart.orig "Der".data, HtmlPart.orig " ".data,
      HtmlPart.wrapped 0 "Hund".data] = "Der Hund".data :=
  C1_wrapping_non_destructive "Der Hund".data [[(wordKey, "Hund".data)]]
    [HtmlPart.orig "Der".data, HtmlPart.orig " ".data, HtmlPart.wrapped 0 "Hund".data] rfl

/-! ## Occurrence counting (C3) -/

/-- Number of candidates in `translations` whose `word` field is `w` (the
size of the group `words_to_wrap[w]`). -/
def candCount (translations : List PyDict) (w : Str) : Nat :=
  translations.countP (fun t => decide (alookup wordKey t = some w))

/-- Number of occurrences of `w` among the word tokens of `text` (exact,
case-sensitive surface form). -/
def occurrenceCount (text : Str) (w : Str) : Nat :=
  (wordTokens text).countP (fun s => decide (s = w))

/-- Number of occurrences of `w` wrapped in the output parts. -/
def wrappedCount (ps : List HtmlPart) (w : Str) : Nat :=
  ps.countP (fun p => match p with
    | HtmlPart.wrapped _ s => decide (s = w)
    | HtmlPart.orig _ => false)

def isWrappedPart : HtmlPart → Bool
  | HtmlPart.wrapped _ _ => true
  | HtmlPart.orig _ => false

/-- For each occurrence of the word `w` in the token stream, in scan order,
whether the part emitted for it wrapped it. -/
def occFlags (toks : List (Bool × Str)) (ps : List HtmlPart) (w : Str) : List Bool :=
  (toks.zip ps).filterMap (fun tp =>
    if tp.1.1 = true ∧ tp.1.2 = w then some (isWrappedPart tp.2) else none)

theorem rangeFlags (n m : Nat) :
    (List.range (n + 1)).map (fun k => decide (k < m))
      = decide (0 < m) :: (List.range n).map (fun k => decide (k < m - 1)) := by
  rw [List.range_succ_eq_map, List.map_cons, List.map_map]
  refine congrArg _ (List.map_congr_left ?_)
  intro k hk
  simp only [Function.comp]
  exact decide_eq_decide.mpr (by omega)

theorem alookup_addIdx_self (w : Str) (i : Nat) (m : List (Str × List Nat)) :
    alookup w (addIdx w i m) = some (((alookup w m).getD []) ++ [i]) := by
  induction m with
  | nil => simp [addIdx, alookup]
  | cons p rest ih =>
    obtain ⟨k, l⟩ := p
    by_cases h : k = w
    · subst h; simp [addIdx, alookup]
    · simp [addIdx, alookup, h, ih]

theorem alookup_addIdx_ne {w w2 : Str} (h : w ≠ w2) (i : Nat) (m : List (Str × List Nat)) :
    alookup w (addIdx w2 i m) = alookup w m := by
  induction m with
  | nil => simp [addIdx, alookup, Ne.symm h]
  | cons p rest ih =>
    obtain ⟨k, l⟩ := p
    by_cases h2 : k = w2
    · subst h2
      simp [addIdx, alookup, Ne.symm h]
    · by_cases h3 : k = w
      · simp [addIdx, alookup, h2, h3, h]
      · simp [addIdx, alookup, h2, h3, h, ih]

theorem buildWordsToWrap_groups {w : Str} (translations : List PyDict) :
    ∀ (i : Nat) (m wtw : List (Str × List Nat)),
      buildWordsToWrap translations i m = Except.ok wtw →
      ((alookup w wtw).getD []).length
        = ((alookup w m).getD []).length + candCount translations w := by
  induction translations with
  | nil =>
    intro i m wtw h
    injection h with h
    subst h
    simp [candCount]
  | cons t rest ih =>
    intro i m wtw h
    unfold buildWordsToWrap at h
    cases hg : pyGet t wordKey with
    | error e => rw [hg] at h; exact absurd h (by simp)
    | ok u =>
      rw [hg] at h
      have halk : alookup wordKey t = some u := by
        unfold pyGet at hg
        cases h2 : alookup wordKey t with
        | some v => rw [h2] at hg; injection hg with hg; subst hg; rfl
        | none => rw [h2] at hg; exact absurd hg (by simp)
      have hrec := ih (i + 1) (addIdx u i m) wtw h
      by_cases hw : u = w
      · subst hw
        rw [alookup_addIdx_self] at hrec
        simp only [Option.getD_some, List.length_append, List.length_singleton] at hrec
        rw [hrec]
        simp [candCount, List.countP_cons, halk]
        omega
      · rw [alookup_addIdx_ne (Ne.symm hw)] at hrec
        rw [hrec]
        simp [candCount, List.countP_cons, halk, hw]

theorem countP_wordTokens (text : Str) (w : Str) :
    occurrenceCount text w
      = (tokenize text).countP (fun t => t.1 && decide (t.2 = w)) := by
  unfold occurrenceCount wordTokens
  induction tokenize text with
  | nil => rfl
  | cons t toks ih =>
    obtain ⟨b, s⟩ := t
    cases b <;> simp [List.countP_cons, ih]

theorem wrapScan_cons_false (wtw : List (Str × List Nat)) (s : Str)
    (toks : List (Bool × Str)) (ctr : List (Str × Nat)) :
    wrapScan wtw ((false, s) :: toks) ctr = HtmlPart.orig s :: wrapScan wtw toks ctr := rfl

theorem wrapScan_cons_none (wtw : List (Str × List Nat)) {s : Str}
    (toks : List (Bool × Str)) (ctr : List (Str × Nat)) (h : alookup s wtw = none) :
    wrapScan wtw ((true, s) :: toks) ctr = HtmlPart.orig s :: wrapScan wtw toks ctr := by
  simp [wrapScan, h]

theorem wrapScan_cons_hit (wtw : List (Str × List Nat)) {s : Str} {idxs : List Nat}
    (toks : List (Bool × Str)) (ctr : List (Str × Nat)) (h : alookup s wtw = some idxs)
    (hlt : (alookup s ctr).getD 0 < idxs.length) :
    wrapScan wtw ((true, s) :: toks) ctr
      = HtmlPart.wrapped (idxs.get ⟨(alookup s ctr).getD 0, hlt⟩) s ::
          wrapScan wtw toks (dictSet s ((alookup s ctr).getD 0 + 1) ctr) := by
  simp only [wrapScan, h, if_true]
  rw [dif_pos hlt]

theorem wrapScan_cons_miss (wtw : List (Str × List Nat)) {s : Str} {idxs : List Nat}
    (toks : List (Bool × Str)) (ctr : List (Str × Nat)) (h : alookup s wtw = some idxs)
    (hlt : ¬ (alookup s ctr).getD 0 < idxs.length) :
    wrapScan wtw ((true, s) :: toks) ctr = HtmlPart.orig s :: wrapScan wtw toks ctr := by
  simp only [wrapScan, h, if_true]
  rw [dif_neg hlt]

theorem wrappedCount_cons_orig (s : Str) (ps : List HtmlPart) (w : Str) :
    wrappedCount (HtmlPart.orig s :: ps) w = wrappedCount ps w := by
  simp [wrappedCount, List.countP_cons]

theorem wrappedCount_cons_wrapped_self (i : Nat) (ps : List HtmlPart) (w : Str) :
    wrappedCount (HtmlPart.wrapped i w :: ps) w = wrappedCount ps w + 1 := by
  simp [wrappedCount, List.countP_cons]

theorem wrappedCount_cons_wrapped_ne (i : Nat) {s : Str} (ps : List HtmlPart) {w : Str}
    (h : s ≠ w) :
    wrappedCount (HtmlPart.wrapped i s :: ps) w = wrappedCount ps w := by
  simp [wrappedCount, List.countP_cons, h]

theorem occFlags_cons_word (p : HtmlPart) (toks : List (Bool × Str))
    (ps : List HtmlPart) (w : Str) :
    occFlags ((true, w) :: toks) (p :: ps) w = isWrappedPart p :: occFlags toks ps w := by
  simp [occFlags, List.filterMap_cons]

theorem occFlags_cons_skip {b : Bool} {s : Str} (p : HtmlPart) (toks : List (Bool × Str))
    (ps : List HtmlPart) {w : Str} (h : ¬ (b = true ∧ s = w)) :
    occFlags ((b, s) :: toks) (p :: ps) w = occFlags toks ps w := by
  simp only [occFlags, List.zip_cons_cons, List.filterMap_cons, if_neg h]

theorem wrapScan_occ (wtw : List (Str × List Nat)) (w : Str) (toks : List (Bool × Str)) :
    ∀ ctr,
      wrappedCount (wrapScan wtw toks ctr) w
        = min (toks.countP (fun t => t.1 && decide (t.2 = w)))
            (((alookup w wtw).getD []).length - (alookup w ctr).getD 0) ∧
      occFlags toks (wrapScan wtw toks ctr) w
        = (List.range (toks.countP (fun t => t.1 && decide (t.2 = w)))).map
            (fun k => decide (k < ((alookup w wtw).getD []).length - (alookup w ctr).getD 0)) := by
  induction toks with
  | nil => intro ctr; simp [wrapScan, wrappedCount, occFlags]
  | cons t toks ih =>
    intro ctr
    obtain ⟨b, s⟩ := t
    cases b with
    | false =>
      have hcnt : List.countP (fun t => t.1 && decide (t.2 = w)) ((false, s) :: toks)
          = List.countP (fun t => t.1 && decide (t.2 = w)) toks := by
        simp [List.countP_cons]
      rw [wrapScan_cons_false, hcnt, wrappedCount_cons_orig,
        occFlags_cons_skip _ _ _ (by simp)]
      exact ih ctr
    | true =>
      by_cases hsw : s = w
      · rw [hsw]
        have hcnt : List.countP (fun t => t.1 && decide (t.2 = w)) ((true, w) :: toks)
            = List.countP (fun t => t.1 && decide (t.2 = w)) toks + 1 := by
          simp [List.countP_cons]
        cases halk : alookup w wtw with
        | none =>
          rw [wrapScan_cons_none wtw toks ctr halk, hcnt, wrappedCount_cons_orig,
            occFlags_cons_word]
          simp only [Option.getD_none, List.length_nil, Nat.zero_sub, isWrappedPart]
          have h1 := (ih ctr).1
          have h2 := (ih ctr).2
          rw [halk] at h1 h2
          simp only [Option.getD_none, List.length_nil, Nat.zero_sub] at h1 h2
          constructor
          · rw [h1]; omega
          · rw [h2, rangeFlags]
            simp
        | some idxs =>
          by_cases hlt : (alookup w ctr).getD 0 < idxs.length
          · rw [wrapScan_cons_hit wtw toks ctr halk hlt, hcnt,
              wrappedCount_cons_wrapped_self, occFlags_cons_word]
            simp only [Option.getD_some, isWrappedPart]
            have hctr2 : (alookup w (dictSet w ((alookup w ctr).getD 0 + 1) ctr)).getD 0
                = (alookup w ctr).getD 0 + 1 := by
              rw [alookup_dictSet_self]; rfl
            have h1 := (ih (dictSet w ((alookup w ctr).getD 0 + 1) ctr)).1
            have h2 := (ih (dictSet w ((alookup w ctr).getD 0 + 1) ctr)).2
            rw [halk, hctr2] at h1 h2
            simp only [Option.getD_some] at h1 h2
            constructor
            · rw [h1]; omega
            · rw [h2, rangeFlags]
              refine List.cons_eq_cons.mpr ⟨?_, ?_⟩
              · exact (decide_eq_true_eq.mpr (by omega)).symm
              · refine List.map_congr_left ?_
                intro k hk
                exact decide_eq_decide.mpr (by omega)
          · rw [wrapScan_cons_miss wtw toks ctr halk hlt, hcnt,
              wrappedCount_cons_orig, occFlags_cons_word]
            simp only [Option.getD_some, isWrappedPart]
            have h1 := (ih ctr).1
            have h2 := (ih ctr).2
            rw [halk] at h1 h2
            simp only [Option.getD_some] at h1 h2
            constructor
            · rw [h1]; omega
            · rw [h2, rangeFlags]
              refine List.cons_eq_cons.mpr ⟨?_, ?_⟩
              · exact (decide_eq_false_iff_not.mpr (by omega)).symm
              · refine List.map_congr_left ?_
                intro k hk
                exact decide_eq_decide.mpr (by omega)
      · have hcnt : List.countP (fun t => t.1 && decide (t.2 = w)) ((true, s) :: toks)
            = List.countP (fun t => t.1 && decide (t.2 = w)) toks := by
          simp [List.countP_cons, hsw]
        have hskip : ¬ ((true : Bool) = true ∧ s = w) := by
          intro hh; exact hsw hh.2
        cases halk : alookup s wtw with
        | none =>
          rw [wrapScan_cons_none wtw toks ctr halk, hcnt,
            wrappedCount_cons_orig, occFlags_cons_skip _ _ _ hskip]
          exact ih ctr
        | some idxs =>
          by_cases hlt : (alookup s ctr).getD 0 < idxs.length
          · rw [wrapScan_cons_hit wtw toks ctr halk hlt, hcnt,
              wrappedCount_cons_wrapped_ne _ _ hsw, occFlags_cons_skip _ _ _ hskip]
            have hctr2 : (alookup w (dictSet s ((alookup s ctr).getD 0 + 1) ctr)).getD 0
                = (alookup w ctr).getD 0 := by
              rw [alookup_dictSet_ne (fun hh => hsw hh.symm)]
            have h0 := ih (dictSet s ((alookup s ctr).getD 0 + 1) ctr)
            simpa only [hctr2] using h0
          · rw [wrapScan_cons_miss wtw toks ctr halk hlt, hcnt,
              wrappedCount_cons_orig, occFlags_cons_skip _ _ _ hskip]
            exact ih ctr


/-- C3: for every segment text and candidate list, the number of wrapped
occurrences of any word `w` equals `min(occurrences of w in the text,
candidates for w in the list)`, the wrapped occurrences are the first ones
in left-to-right scan order (the k-th occurrence is wrapped exactly when
`k < candidates for w`), surplus occurrences are left untouched and surplus
candidates wrap nothing without an error. -/
theorem C3_occurrence_bound (text : Str) (translations : List PyDict) (w : Str)
    (parts : List HtmlPart)
    (h : wrap_words_in_spans text translations = Except.ok parts) :
    wrappedCount parts w = min (occurrenceCount text w) (candCount translations w) ∧
    occFlags (tokenize text) parts w
      = (List.range (occurrenceCount text w)).map
          (fun k => decide (k < candCount translations w)) := by
  unfold wrap_words_in_spans at h
  cases hb : buildWordsToWrap translations 0 [] with
  | error e => rw [hb] at h; exact absurd h (by simp)
  | ok wtw =>
    rw [hb] at h
    injection h with h
    subst h
    have hg := buildWordsToWrap_groups (w := w) translations 0 [] wtw hb
    simp only [alookup, Option.getD_none, List.length_nil, Nat.zero_add] at hg
    have hocc := wrapScan_occ wtw w (tokenize text) []
    rw [countP_wordTokens]
    simp only [alookup, Option.getD_none, Nat.sub_zero] at hocc
    rw [hg] at hocc
    exact hocc

/-- Closed witness for C3: three occurrences of a word, one candidate. -/
theorem C3_witness :
    wrappedCount [HtmlPart.wrapped 0 "ab".data, HtmlPart.orig " ".data,
        HtmlPart.orig "ab".data, HtmlPart.orig " ".data, HtmlPart.orig "ab".data] "ab".data
      = min (occurrenceCount "ab ab ab".data "ab".data)
          (candCount [[(wordKey, "ab".data)]] "ab".data) ∧
    occFlags (tokenize "ab ab ab".data)
        [HtmlPart.wrapped 0 "ab".data, HtmlPart.orig " ".data,
          HtmlPart.orig "ab".data, HtmlPart.orig " ".data, HtmlPart.orig "ab".data] "ab".data
      = (List.range (occurrenceCount "ab ab ab".data "ab".data)).map
          (fun k => decide (k < candCount [[(wordKey, "ab".data)]] "ab".data)) :=
  C3_occurrence_bound "ab ab ab".data [[(wordKey, "ab".data)]] "ab".data
    [HtmlPart.wrapped 0 "ab".data, HtmlPart.orig " ".data,
      HtmlPart.orig "ab".data, HtmlPart.orig " ".data, HtmlPart.orig "ab".data] rfl

/-! ## Prompt construction and cache key (lines 692-694 and 731-772)

`translate_paragraph_with_mistral` builds one prompt per paragraph; the
cache key is the MD5 hex digest of that prompt.  Below, the prompt literal
of lines 745-769 is split at its four interpolation holes (context, text,
and the difficult-word count, which appears twice). -/

/-- `{context if context else "Texte général en allemand"}`: an empty
context string is falsy in Python and is replaced by the default text. -/
def effectiveContext (ctx : Str) : Str :=
  if ctx = [] then "Texte général en allemand".data else ctx

def promptA : Str :=
  ("Tu es un assistant de traduction allemand-français spécialisé dans "
    ++ "l\x27analyse grammaticale.\n\nContexte global : ").data

def promptB : Str := "\n\nTexte à analyser (paragraphe) :\n".data

def promptC : Str := "\n\nTÂCHE:\nIdentifie les ".data

def promptD : Str :=
  (" mots les plus DIFFICILES pour un apprenant de l\x27allemand (vocabulaire "
    ++ "avancé, structures grammaticales complexes, expressions idiomatiques) "
    ++ "et fournis pour chacun:\n"
    ++ "- Le mot exact tel qu\x27il apparaît dans le texte\n"
    ++ "- Ses informations grammaticales\n"
    ++ "- Sa traduction française en contexte\n\n"
    ++ "Format de réponse JSON OBLIGATOIRE :\n"
    ++ "\x7b\n"
    ++ "  \"translations\": [\n"
    ++ "    \x7b\"word\": \"mot_exact_1\", \"grammar\": \"informations "
    ++ "grammaticales\", \"translation\": \"traduction en contexte\"\x7d,\n"
    ++ "    \x7b\"word\": \"mot_exact_2\", \"grammar\": \"informations "
    ++ "grammaticales\", \"translation\": \"traduction en contexte\"\x7d\n"
    ++ "  ]\n"
    ++ "\x7d\n\n"
    ++ "RÈGLES:\n"
    ++ "- Sélectionne EXACTEMENT ").data

def promptE : Str :=
  (" mots les plus difficiles\n"
    ++ "- Le champ \"word\" doit contenir le mot EXACT du texte (même "
    ++ "capitalisation)\n"
    ++ "- Évite les mots faciles (der, die, das, und, aber, ist, hat, etc.)").data

/-- Line 740: `num_difficult_words = max(1, len(words) // 3)` where `words`
are the word tokens of the paragraph. -/
def numDifficultWords (text : Str) : Nat := max 1 ((wordTokens text).length / 3)

/-- The prompt of lines 745-769, with the context default of line 747 and
the count interpolated twice (lines 753 and 767). -/
def buildPrompt (text ctx : Str) : Str :=
  promptA ++ (effectiveContext ctx ++ (promptB ++ (text ++ (promptC
    ++ (natStr (numDifficultWords text) ++ (promptD
    ++ (natStr (numDifficultWords text) ++ promptE)))))))

/-- `get_cache_key(prompt)` (lines 692-694): `hashlib.md5(prompt).hexdigest()`.
MD5 is library code outside this repository; it is modelled as an injective
fingerprint of the prompt (the identity map), which shares with the real
digest the property the cache relies on: a deterministic pure function of
the prompt (the real digest identifies distinct prompts only up to hash
collisions). -/
def get_cache_key (prompt : Str) : Str := prompt

/-- The cache fingerprint of a `(segment text, context)` request pair. -/
def tpKey (text ctx : Str) : Str := get_cache_key (buildPrompt text ctx)

/-- C6 counterexample: the empty context and the context
`"Texte général en allemand"` are distinct contexts, yet they produce the
very same prompt (line 747 replaces a falsy context by that default), hence
the same MD5 fingerprint — refuting that two requests with the same segment
text but different contexts always produce different fingerprints. -/
theorem C6_counterexample :
    tpKey "Hallo Welt".data [] = tpKey "Hallo Welt".data "Texte général en allemand".data
      ∧ ([] : Str) ≠ "Texte général en allemand".data := by
  constructor
  · decide
  · decide

/-- C6 (amended): the fingerprint is a deterministic function of the pair
`(segment text, context)`, and for a fixed segment text two contexts give
the same fingerprint exactly when their effective contexts coincide, the
effective context being the context itself unless it is empty, in which
case it is the default `"Texte général en allemand"` — so only the
empty/default collapse identifies two distinct contexts. -/
theorem C6_fingerprint_determinism (text c1 c2 : Str) :
    tpKey text c1 = tpKey text c2 ↔ effectiveContext c1 = effectiveContext c2 := by
  unfold tpKey get_cache_key buildPrompt
  constructor
  · intro h
    have h2 := List.append_cancel_left h
    exact List.append_cancel_right h2
  · intro h
    rw [h]

/-! ## Cache store and the retry/degrade loop of `translate_paragraph_with_mistral`

The external model call and the pickle store are collaborators outside the
program; the call outcomes are scripted by an oracle (one entry per loop
iteration) and the store is a key-to-cell association list. -/

/-- One stored cache entry: the unpickled candidate list, or an unreadable
(corrupt) pickle file. -/
inductive CacheCell where
  | good : List PyDict → CacheCell
  | corrupt : CacheCell
deriving DecidableEq

/-- The on-disk cache: fingerprint to stored cell. -/
abbrev CacheStore := List (Str × CacheCell)

/-- `get_from_cache` (lines 697-710): a missing file and an unreadable
pickle both yield `None` (the read error is caught and logged). -/
def get_from_cache (cache : CacheStore) (key : Str) : Option (List PyDict) :=
  match alookup key cache with
  | some (CacheCell.good v) => some v
  | some CacheCell.corrupt => none
  | none => none

/-- `save_to_cache` (lines 713-723): a write failure is caught and logged,
leaving the store unchanged; `writeOk` scripts whether this write works. -/
def save_to_cache (cache : CacheStore) (key : Str) (v : List PyDict)
    (writeOk : Bool) : CacheStore :=
  if writeOk then dictSet key (CacheCell.good v) cache else cache

/-- The shape of `result["translations"]` in a parsed model response:
a list of candidate dicts, or present but not a list. -/
inductive TransField where
  | list : List PyDict → TransField
  | nonList : TransField
deriving DecidableEq

/-- Scripted outcome of one iteration of the retry loop: an exception
(network failure, timeout, or JSON parse error), or a parsed response
object (`none` = no `translations` key) together with whether the cache
write of this iteration succeeds. -/
inductive Attempt where
  | raise : Attempt
  | resp : Option TransField → Bool → Attempt
deriving DecidableEq

/-- The outcome of `translate_paragraph_with_mistral`: the returned pair
`(html, translations)`, or an uncaught exception (its `KeyError` key). -/
inductive TPResult where
  | ret : Str → List PyDict → TPResult
  | crash : Str → TPResult
deriving DecidableEq

/-- The returned `word_translations_list` (empty for a crash). -/
def TPResult.trans : TPResult → List PyDict
  | TPResult.ret _ ts => ts
  | TPResult.crash _ => []

/-- The returned `html_with_spans` (the error key for a crash). -/
def TPResult.html : TPResult → Str
  | TPResult.ret h _ => h
  | TPResult.crash e => e

/-- The retry loop of lines 779-812, with `rem` iterations left (3 at
entry) and `calls` counting model invocations (each iteration invokes the
client once; a missing oracle entry behaves like an exception).  Line 791
validates only that the parsed response has a `translations` key holding a
non-empty list; an accepted list is saved to the cache (line 793) BEFORE
`wrap_words_in_spans` runs on it (line 796), so a `KeyError` raised by the
wrapping is caught by the `except` of line 804 and retried or degraded —
but the entry stays cached.  Exhaustion returns `(paragraph_text, [])`
(lines 810 and 812) without caching anything. -/
def attemptLoop (text key : Str) : Nat → List Attempt → CacheStore → Nat →
    TPResult × CacheStore × Nat
  | 0, _, cache, calls => (TPResult.ret text [], cache, calls)
  | rem + 1, oracle, cache, calls =>
    match oracle with
    | [] =>
      if 0 < rem then attemptLoop text key rem [] cache (calls + 1)
      else (TPResult.ret text [], cache, calls + 1)
    | Attempt.raise :: rest =>
      if 0 < rem then attemptLoop text key rem rest cache (calls + 1)
      else (TPResult.ret text [], cache, calls + 1)
    | Attempt.resp tf wOk :: rest =>
      match tf with
      | some (TransField.list items) =>
        if 0 < items.length then
          match wrap_words_in_spans text items with
          | Except.ok parts =>
            (TPResult.ret (render parts) items, save_to_cache cache key items wOk, calls + 1)
          | Except.error _ =>
            if 0 < rem then
              attemptLoop text key rem rest (save_to_cache cache key items wOk) (calls + 1)
            else (TPResult.ret text [], save_to_cache cache key items wOk, calls + 1)
        else
          if 0 < rem then attemptLoop text key rem rest cache (calls + 1)
          else (TPResult.ret text [], cache, calls + 1)
      | _ =>
        if 0 < rem then attemptLoop text key rem rest cache (calls + 1)
        else (TPResult.ret text [], cache, calls + 1)

/-- `translate_paragraph_with_mistral(paragraph_text, context)` (lines
726-812): missing credential and wordless segments short-circuit; then the
cache is consulted (the stored list must be truthy, i.e. non-empty); on a
hit the stored list is wrapped OUTSIDE any `try` (line 776), so a
`KeyError` there crashes the run; on a miss the retry loop runs with
`max_retries = 3`.  Returns the result, the final store, and the number of
model invocations. -/
def translate_paragraph_with_mistral (apiKey : Bool) (text ctx : Str)
    (cache : CacheStore) (oracle : List Attempt) : TPResult × CacheStore × Nat :=
  if apiKey = false then (TPResult.ret text [], cache, 0)
  else if (wordTokens text).length = 0 then (TPResult.ret text [], cache, 0)
  else
    match get_from_cache cache (tpKey text ctx) with
    | some cached =>
      if 0 < cached.length then
        match wrap_words_in_spans text cached with
        | Except.ok parts => (TPResult.ret (render parts) cached, cache, 0)
        | Except.error e => (TPResult.crash e, cache, 0)
      else attemptLoop text (tpKey text ctx) 3 oracle cache 0
    | none => attemptLoop text (tpKey text ctx) 3 oracle cache 0

/-- Whether a scripted outcome passes the validation of line 791: a parsed
response whose `translations` key holds a non-empty list. -/
def acceptableAttempt : Attempt → Bool
  | Attempt.resp (some (TransField.list items)) _ => decide (0 < items.length)
  | _ => false

/-- Whether the cache write scripted with the outcome succeeds. -/
def attemptWriteOk : Attempt → Bool
  | Attempt.raise => true
  | Attempt.resp _ w => w

/-- C8 (amended): line 791 validates only that the parsed response carries a
`translations` key holding a NON-EMPTY LIST — the three fields of the list
elements are not checked.  Responses failing this shape check (exception,
missing key, non-list value, empty list) are never accepted and never
cached: the loop retries each of its `rem` attempts (one model invocation
each) and then degrades to `(paragraph_text, [])` with the store unchanged.
A non-empty list whose elements lack fields, however, passes the check and
is cached (see the counterexample). -/
theorem C8_schema_validation (text key : Str) :
    ∀ (rem : Nat) (oracle : List Attempt) (cache : CacheStore) (calls : Nat),
      (∀ a ∈ oracle, acceptableAttempt a = false) →
      attemptLoop text key rem oracle cache calls
        = (TPResult.ret text [], cache, calls + rem) := by
  intro rem
  induction rem with
  | zero => intro oracle cache calls hacc; simp [attemptLoop]
  | succ rem ih =>
    intro oracle cache calls hacc
    have harith : calls + 1 + rem = calls + (rem + 1) := by omega
    cases oracle with
    | nil =>
      by_cases hr : 0 < rem
      · simp only [attemptLoop, if_pos hr]
        rw [ih [] cache (calls + 1) (by intro a ha; cases ha), harith]
      · have hr0 : rem = 0 := by omega
        subst hr0
        simp [attemptLoop]
    | cons a rest =>
      have hrest : ∀ b ∈ rest, acceptableAttempt b = false := by
        intro b hb; exact hacc b (List.mem_cons_of_mem a hb)
      have hhead := hacc a (List.mem_cons_self a rest)
      cases a with
      | raise =>
        by_cases hr : 0 < rem
        · simp only [attemptLoop, if_pos hr]
          rw [ih rest cache (calls + 1) hrest, harith]
        · have hr0 : rem = 0 := by omega
          subst hr0
          simp [attemptLoop]
      | resp tf wOk =>
        cases tf with
        | none =>
          by_cases hr : 0 < rem
          · simp only [attemptLoop, if_pos hr]
            rw [ih rest cache (calls + 1) hrest, harith]
          · have hr0 : rem = 0 := by omega
            subst hr0
            simp [attemptLoop]
        | some f =>
          cases f with
          | nonList =>
            by_cases hr : 0 < rem
            · simp only [attemptLoop, if_pos hr]
              rw [ih rest cache (calls + 1) hrest, harith]
            · have hr0 : rem = 0 := by omega
              subst hr0
              simp [attemptLoop]
          | list items =>
            have hlen : ¬ 0 < items.length := by
              simpa [acceptableAttempt] using hhead
            by_cases hr : 0 < rem
            · simp only [attemptLoop, if_neg hlen, if_pos hr]
              rw [ih rest cache (calls + 1) hrest, harith]
            · have hr0 : rem = 0 := by omega
              subst hr0
              simp [attemptLoop, if_neg hlen]

/-- Closed witness for C8 at a concrete run: an exception, a response with
no `translations` key, and a non-list value — three attempts, nothing
cached, degrade. -/
theorem C8_witness :
    attemptLoop "Hallo Welt".data "k".data 3
        [Attempt.raise, Attempt.resp none true, Attempt.resp (some TransField.nonList) true]
        [] 0
      = (TPResult.ret "Hallo Welt".data [], [], 0 + 3) :=
  C8_schema_validation "Hallo Welt".data "k".data 3
    [Attempt.raise, Attempt.resp none true, Attempt.resp (some TransField.nonList) true]
    [] 0 (by decide)

/-- C8 counterexample: a response whose `translations` list is non-empty
but whose element lacks the `word` field (and the other two fields) passes
the validation of line 791 and IS cached (line 793 runs before the wrap of
line 796 raises), even though the run then degrades — refuting that such a
response is never accepted and never cached. -/
theorem C8_counterexample :
    get_from_cache
        (translate_paragraph_with_mistral true "Hallo Welt".data [] []
          [Attempt.resp (some (TransField.list [[(grammarKey, "g".data)]])) true]).2.1
        (tpKey "Hallo Welt".data [])
      = some [[(grammarKey, "g".data)]]
      ∧ (translate_paragraph_with_mistral true "Hallo Welt".data [] []
          [Attempt.resp (some (TransField.list [[(grammarKey, "g".data)]])) true]).1
        = TPResult.ret "Hallo Welt".data [] := by
  constructor
  · decide
  · decide

/-- C9 (amended): the target count `max(1, wordCount // 3)` is only an
instruction embedded in the prompt; the code never compares the length of
the returned list against it.  Any non-empty candidate list is accepted as
is: the loop returns it (and caches it) whatever its length. -/
theorem C9_no_target_enforcement (text key : Str) (rem : Nat) (rest : List Attempt)
    (cache : CacheStore) (calls : Nat) (items : List PyDict) (wOk : Bool)
    (parts : List HtmlPart)
    (hne : 0 < items.length)
    (hwrap : wrap_words_in_spans text items = Except.ok parts) :
    attemptLoop text key (rem + 1)
        (Attempt.resp (some (TransField.list items)) wOk :: rest) cache calls
      = (TPResult.ret (render parts) items, save_to_cache cache key items wOk,
          calls + 1) := by
  simp only [attemptLoop, if_pos hne, hwrap]

/-- Closed witness for C9: a two-candidate list accepted for a three-word
segment whose target count is `max(1, 3 // 3) = 1`. -/
theorem C9_witness :
    attemptLoop "Der Hund bellt".data "k".data 3
        [Attempt.resp (some (TransField.list
          [[(wordKey, "Der".data)], [(wordKey, "Hund".data)]])) true] [] 0
      = (TPResult.ret (render
            [HtmlPart.wrapped 0 "Der".data, HtmlPart.orig " ".data,
              HtmlPart.wrapped 1 "Hund".data, HtmlPart.orig " ".data,
              HtmlPart.orig "bellt".data])
          [[(wordKey, "Der".data)], [(wordKey, "Hund".data)]],
          save_to_cache [] "k".data
            [[(wordKey, "Der".data)], [(wordKey, "Hund".data)]] true, 0 + 1) :=
  C9_no_target_enforcement "Der Hund bellt".data "k".data 2
    [] [] 0 [[(wordKey, "Der".data)], [(wordKey, "Hund".data)]] true
    [HtmlPart.wrapped 0 "Der".data, HtmlPart.orig " ".data,
      HtmlPart.wrapped 1 "Hund".data, HtmlPart.orig " ".data,
      HtmlPart.orig "bellt".data] (by decide) rfl

/-- C9 counterexample: the segment `"Der Hund bellt"` has three word
tokens, so the target count is `max(1, 3 // 3) = 1`; yet a response with
two candidates is accepted and returned (and cached) in full — refuting
that no accepted candidate list exceeds the target count. -/
theorem C9_counterexample :
    ((translate_paragraph_with_mistral true "Der Hund bellt".data [] []
        [Attempt.resp (some (TransField.list
          [[(wordKey, "Der".data)], [(wordKey, "Hund".data)]])) true]).1).trans.length = 2
      ∧ numDifficultWords "Der Hund bellt".data = 1 := by
  constructor
  · decide
  · decide

theorem attemptLoop_success_cached (text key : Str) :
    ∀ (rem : Nat) (oracle : List Attempt) (cache : CacheStore) (calls : Nat),
      (∀ a ∈ oracle, attemptWriteOk a = true) →
      (attemptLoop text key rem oracle cache calls).1.trans ≠ [] →
      get_from_cache (attemptLoop text key rem oracle cache calls).2.1 key
        = some (attemptLoop text key rem oracle cache calls).1.trans := by
  intro rem
  induction rem with
  | zero =>
    intro oracle cache calls hw hne
    simp [attemptLoop, TPResult.trans] at hne
  | succ rem ih =>
    intro oracle cache calls hw hne
    cases oracle with
    | nil =>
      by_cases hr : 0 < rem
      · simp only [attemptLoop, if_pos hr] at hne ⊢
        exact ih [] cache (calls + 1) (by intro a ha; cases ha) hne
      · have hr0 : rem = 0 := by omega
        subst hr0
        simp [attemptLoop, TPResult.trans] at hne
    | cons a rest =>
      have hrest : ∀ b ∈ rest, attemptWriteOk b = true := by
        intro b hb; exact hw b (List.mem_cons_of_mem a hb)
      have hhead := hw a (List.mem_cons_self a rest)
      cases a with
      | raise =>
        by_cases hr : 0 < rem
        · simp only [attemptLoop, if_pos hr] at hne ⊢
          exact ih rest cache (calls + 1) hrest hne
        · have hr0 : rem = 0 := by omega
          subst hr0
          simp [attemptLoop, TPResult.trans] at hne
      | resp tf wOk =>
        have hwok : wOk = true := by simpa [attemptWriteOk] using hhead
        subst hwok
        cases tf with
        | none =>
          by_cases hr : 0 < rem
          · simp only [attemptLoop, if_pos hr] at hne ⊢
            exact ih rest cache (calls + 1) hrest hne
          · have hr0 : rem = 0 := by omega
            subst hr0
            simp [attemptLoop, TPResult.trans] at hne
        | some f =>
          cases f with
          | nonList =>
            by_cases hr : 0 < rem
            · simp only [attemptLoop, if_pos hr] at hne ⊢
              exact ih rest cache (calls + 1) hrest hne
            · have hr0 : rem = 0 := by omega
              subst hr0
              simp [attemptLoop, TPResult.trans] at hne
          | list items =>
            by_cases hlen : 0 < items.length
            · cases hwrap : wrap_words_in_spans text items with
              | ok parts =>
                simp only [attemptLoop, if_pos hlen, hwrap]
                simp [TPResult.trans, save_to_cache, get_from_cache, alookup_dictSet_self]
              | error e =>
                by_cases hr : 0 < rem
                · simp only [attemptLoop, if_pos hlen, hwrap, if_pos hr] at hne ⊢
                  exact ih rest (save_to_cache cache key items true) (calls + 1) hrest hne
                · have hr0 : rem = 0 := by omega
                  subst hr0
                  simp only [attemptLoop, if_pos hlen, hwrap] at hne
                  simp [TPResult.trans] at hne
            · by_cases hr : 0 < rem
              · simp only [attemptLoop, if_neg hlen, if_pos hr] at hne ⊢
                exact ih rest cache (calls + 1) hrest hne
              · have hr0 : rem = 0 := by omega
                subst hr0
                simp [attemptLoop, if_neg hlen, TPResult.trans] at hne

theorem tp_cache_hit_no_calls (apiKey : Bool) (text ctx : Str) (cache : CacheStore)
    (oracle : List Attempt) (l : List PyDict)
    (hhit : get_from_cache cache (tpKey text ctx) = some l) (hne : l ≠ []) :
    (translate_paragraph_with_mistral apiKey text ctx cache oracle).2.2 = 0 := by
  unfold translate_paragraph_with_mistral
  by_cases ha : apiKey = false
  · simp [ha]
  · rw [if_neg ha]
    by_cases hwt : (wordTokens text).length = 0
    · simp [hwt]
    · rw [if_neg hwt]
      simp only [hhit]
      rw [if_pos (List.length_pos.mpr hne)]
      cases hwrap : wrap_words_in_spans text l with
      | ok parts => simp [hwrap]
      | error e => simp [hwrap]

theorem tp_success_cached (text ctx : Str) (cache : CacheStore) (o1 : List Attempt)
    (hw : ∀ a ∈ o1, attemptWriteOk a = true)
    (hne : (translate_paragraph_with_mistral true text ctx cache o1).1.trans ≠ []) :
    get_from_cache (translate_paragraph_with_mistral true text ctx cache o1).2.1
        (tpKey text ctx)
      = some (translate_paragraph_with_mistral true text ctx cache o1).1.trans := by
  unfold translate_paragraph_with_mistral at hne ⊢
  rw [if_neg (by simp)] at hne ⊢
  by_cases hwt : (wordTokens text).length = 0
  · rw [if_pos hwt] at hne ⊢
    exact absurd rfl hne
  · rw [if_neg hwt] at hne ⊢
    rcases Option.eq_none_or_eq_some (get_from_cache cache (tpKey text ctx)) with
      hc | ⟨cached, hc⟩
    · simp only [hc] at hne ⊢
      exact attemptLoop_success_cached text (tpKey text ctx) 3 o1 cache 0 hw hne
    · simp only [hc] at hne ⊢
      by_cases hlen : 0 < cached.length
      · rw [if_pos hlen] at hne ⊢
        rcases hx : wrap_words_in_spans text cached with e | parts
        · rw [hx] at hne
          exact absurd rfl hne
        · exact hc
      · rw [if_neg hlen] at hne ⊢
        exact attemptLoop_success_cached text (tpKey text ctx) 3 o1 cache 0 hw hne

/-- C7 (amended): once a processing of a payload ends with a non-empty
accepted candidate list (and the cache writes succeed), the candidate list
is stored under the payload fingerprint and any later processing of the
same payload — same segment text and context, against the store the first
run left behind — is served from the cache with ZERO model invocations.
A processing that ends in the empty-candidate degrade outcome stores
nothing, so it does not prevent later model calls for the same payload
(see the counterexample). -/
theorem C7_at_most_one_call (text ctx : Str) (cache : CacheStore)
    (o1 o2 : List Attempt)
    (hw : ∀ a ∈ o1, attemptWriteOk a = true)
    (hts : (translate_paragraph_with_mistral true text ctx cache o1).1.trans ≠ []) :
    (translate_paragraph_with_mistral true text ctx
        (translate_paragraph_with_mistral true text ctx cache o1).2.1 o2).2.2 = 0 :=
  tp_cache_hit_no_calls true text ctx _ o2 _
    (tp_success_cached text ctx cache o1 hw hts) hts

/-- Closed witness for C7: a first processing accepts one candidate; the
repeat processing of the same payload performs zero model invocations. -/
theorem C7_witness :
    (translate_paragraph_with_mistral true "Hallo Welt".data []
        (translate_paragraph_with_mistral true "Hallo Welt".data [] []
          [Attempt.resp (some (TransField.list [[(wordKey, "Hallo".data)]])) true]).2.1
        [Attempt.raise, Attempt.raise, Attempt.raise]).2.2 = 0 :=
  C7_at_most_one_call "Hallo Welt".data [] []
    [Attempt.resp (some (TransField.list [[(wordKey, "Hallo".data)]])) true]
    [Attempt.raise, Attempt.raise, Attempt.raise] (by decide) (by decide)

/-- C7 counterexample: a processing that ends in the empty-candidate
degrade outcome (three failed attempts) stores nothing, so a later
processing of the same payload against the store it left behind invokes
the model three more times — refuting that after ANY processing of a
payload a repeat processing is served from the cache, in particular after
a degrade outcome. -/
theorem C7_counterexample :
    translate_paragraph_with_mistral true "Hallo Welt".data [] []
        [Attempt.raise, Attempt.raise, Attempt.raise]
      = (TPResult.ret "Hallo Welt".data [], [], 3)
      ∧ (translate_paragraph_with_mistral true "Hallo Welt".data []
          (translate_paragraph_with_mistral true "Hallo Welt".data [] []
            [Attempt.raise, Attempt.raise, Attempt.raise]).2.1
          [Attempt.raise, Attempt.raise, Attempt.raise]).2.2 = 3 := by
  constructor
  · decide
  · decide

/-- C5: failure containment is broken on the cache-hit path.  With a cache
entry under the payload fingerprint whose stored candidate dict lacks the
`word` field, line 776 evaluates `wrap_words_in_spans` on the stored list
OUTSIDE any `try`, and the `KeyError` propagates out of
`translate_paragraph_with_mistral`: the run crashes instead of rendering
the segment with fewer annotations. -/
theorem C5_cache_hit_crash :
    translate_paragraph_with_mistral true "Hallo Welt".data []
        [(tpKey "Hallo Welt".data [], CacheCell.good [[(grammarKey, "g".data)]])] []
      = (TPResult.crash wordKey,
          [(tpKey "Hallo Welt".data [], CacheCell.good [[(grammarKey, "g".data)]])],
          0) := by
  decide

/-! ## The identifier allocator of `translate_words_with_mistral` (lines 898-931)

After a paragraph is wrapped, the loop of lines 915-931 renames each
`data-word-id` from the per-paragraph candidate index to an episode-scoped
identifier `l<episode_id>_w<counter>` by string replacement on the html,
records the candidate metadata in the episode word map under the fresh
identifier, and advances the counter — one step per candidate. -/

theorem digit_toNat (n : Nat) (h : n < 10) : (Char.ofNat (48 + n)).toNat = 48 + n := by
  interval_cases n <;> decide

/-- Decimal parsing, a left inverse of `natStr`. -/
def parseNat (s : Str) : Nat := s.foldl (fun acc c => acc * 10 + (c.toNat - 48)) 0

theorem parseNat_append (s : Str) (c : Char) :
    parseNat (s ++ [c]) = parseNat s * 10 + (c.toNat - 48) := by
  simp [parseNat, List.foldl_append]

theorem parseNat_natStrAux (fuel : Nat) : ∀ n : Nat, n < fuel →
    parseNat (natStrAux fuel n) = n := by
  induction fuel with
  | zero => intro n h; omega
  | succ fuel ih =>
    intro n h
    by_cases hn : n < 10
    · simp [natStrAux, hn, parseNat, digit_toNat n hn]
    · simp only [natStrAux, if_neg hn]
      rw [parseNat_append]
      have hdiv : n / 10 < fuel := by
        have := Nat.div_lt_self (show 0 < n by omega) (show 1 < 10 by omega)
        omega
      rw [ih (n / 10) hdiv, digit_toNat (n % 10) (Nat.mod_lt n (by omega))]
      omega

theorem parseNat_natStr (n : Nat) : parseNat (natStr n) = n :=
  parseNat_natStrAux (n + 1) n (Nat.lt_succ_self n)

theorem natStr_injective {a b : Nat} (h : natStr a = natStr b) : a = b := by
  have h2 := congrArg parseNat h
  rwa [parseNat_natStr, parseNat_natStr] at h2

/-- Line 919: `new_id = f"l{episode_id}_w{word_id_counter}"`. -/
def newIdStr (episode_id : Str) (n : Nat) : Str :=
  'l' :: (episode_id ++ ('_' :: 'w' :: natStr n))

theorem newIdStr_inj {ep : Str} {a b : Nat} (h : newIdStr ep a = newIdStr ep b) :
    a = b := by
  unfold newIdStr at h
  injection h with h1 h2
  have h3 := List.append_cancel_left h2
  injection h3 with h4 h5
  injection h5 with h6 h7
  exact natStr_injective h7

/-- The attribute text `data-word-id=<q><i><q>` searched and written by the
replacements of lines 922-923 (`q` is a single or a double quote). -/
def wordIdAttr (q : Char) (i : Str) : Str :=
  "data-word-id=".data ++ (q :: (i ++ [q]))

/-- Line 917: `translations.index(translation)` — the index of the FIRST
list element equal to the argument (the loop only passes members). -/
def pyIndex : List PyDict → PyDict → Nat
  | [], _ => 0
  | x :: xs, t => if x = t then 0 else pyIndex xs t + 1

/-- Worker for `str.replace` with explicit step fuel: each step either
copies one character or, when the (non-empty) pattern matches, emits the
replacement and jumps past the match.  Since every step consumes at least
one input character, `s.length` steps always suffice. -/
def replaceFuel (pat rep : Str) : Nat → Str → Str
  | 0, s => s
  | fuel + 1, s =>
    match s with
    | [] => []
    | c :: cs =>
      if !pat.isEmpty && pat.isPrefixOf (c :: cs) then
        rep ++ replaceFuel pat rep fuel ((c :: cs).drop pat.length)
      else c :: replaceFuel pat rep fuel cs

/-- `s.replace(pat, rep)` (lines 922-923): non-overlapping left-to-right
replacement (the loop never calls it with an empty pattern). -/
def listReplace (s pat rep : Str) : Str := replaceFuel pat rep s.length s

/-- Substring test, to state facts about the produced markup. -/
def hasSub (pat : Str) : Str → Bool
  | [] => pat.isEmpty
  | c :: cs => pat.isPrefixOf (c :: cs) || hasSub pat cs

/-- The identifier-rewriting loop of lines 915-931: for each candidate of
the full list in order, `old_id = str(translations.index(translation))`
(first index of an EQUAL dict), both quote variants of the
`data-word-id` attribute carrying `old_id` are replaced in the html by the
episode-scoped identifier, the word map records
`{word, grammar, translation}` (each defaulting to the empty string) under
the fresh identifier, and the counter advances by one. -/
def allocLoop (episode_id : Str) (translations : List PyDict) :
    List PyDict → Str → List (Str × (Str × Str × Str)) → Nat →
      Str × List (Str × (Str × Str × Str)) × Nat
  | [], html, m, c => (html, m, c)
  | t :: rest, html, m, c =>
    let old_id := natStr (pyIndex translations t)
    let new_id := newIdStr episode_id c
    let html1 := listReplace html (wordIdAttr sq old_id) (wordIdAttr sq new_id)
    let html2 := listReplace html1 (wordIdAttr dq old_id) (wordIdAttr dq new_id)
    let m2 := dictSet new_id
      (pyGetD t wordKey [], pyGetD t grammarKey [], pyGetD t translationKey []) m
    allocLoop episode_id translations rest html2 m2 (c + 1)

/-- One `{word, grammar, translation}` entry per candidate of the list,
keyed by the successive episode-scoped identifiers starting at `c`. -/
def allocEntries (episode_id : Str) : Nat → List PyDict → List (Str × (Str × Str × Str))
  | _, [] => []
  | c, t :: rest =>
    (newIdStr episode_id c,
      (pyGetD t wordKey [], pyGetD t grammarKey [], pyGetD t translationKey []))
      :: allocEntries episode_id (c + 1) rest

theorem dictSet_fresh {V : Type} (k : Str) (v : V) (d : List (Str × V))
    (h : alookup k d = none) : dictSet k v d = d ++ [(k, v)] := by
  induction d with
  | nil => simp [dictSet]
  | cons p rest ih =>
    obtain ⟨k2, v2⟩ := p
    simp only [alookup] at h
    by_cases h2 : k2 = k
    · rw [if_pos h2] at h
      exact absurd h (by simp)
    · rw [if_neg h2] at h
      simp [dictSet, h2, ih h]

theorem alookup_append_of_none {V : Type} (k : Str) (d e : List (Str × V))
    (h : alookup k d = none) : alookup k (d ++ e) = alookup k e := by
  induction d with
  | nil => simp
  | cons p rest ih =>
    obtain ⟨k2, v2⟩ := p
    simp only [alookup] at h ⊢
    by_cases h2 : k2 = k
    · rw [if_pos h2] at h
      exact absurd h (by simp)
    · rw [if_neg h2] at h ⊢
      exact ih h

theorem allocLoop_spec (ep : Str) (translations : List PyDict) :
    ∀ (ts : List PyDict) (html : Str) (m : List (Str × (Str × Str × Str))) (c : Nat),
      (∀ n, c ≤ n → alookup (newIdStr ep n) m = none) →
      (allocLoop ep translations ts html m c).2.1 = m ++ allocEntries ep c ts ∧
      (allocLoop ep translations ts html m c).2.2 = c + ts.length := by
  intro ts
  induction ts with
  | nil => intro html m c hfresh; simp [allocLoop, allocEntries]
  | cons t rest ih =>
    intro html m c hfresh
    simp only [allocLoop]
    have hm : dictSet (newIdStr ep c)
        (pyGetD t wordKey [], pyGetD t grammarKey [], pyGetD t translationKey []) m
        = m ++ [(newIdStr ep c,
            (pyGetD t wordKey [], pyGetD t grammarKey [], pyGetD t translationKey []))] :=
      dictSet_fresh _ _ m (hfresh c (Nat.le_refl c))
    rw [hm]
    have hfresh2 : ∀ n, c + 1 ≤ n →
        alookup (newIdStr ep n)
          (m ++ [(newIdStr ep c,
            (pyGetD t wordKey [], pyGetD t grammarKey [], pyGetD t translationKey []))])
          = none := by
      intro n hn
      rw [alookup_append_of_none _ _ _ (hfresh n (by omega))]
      simp only [alookup]
      have hneq : ¬ (newIdStr ep c = newIdStr ep n) := by
        intro heq
        have := newIdStr_inj heq
        omega
      rw [if_neg hneq]
    have hrec := ih
      (listReplace
        (listReplace html (wordIdAttr sq (natStr (pyIndex translations t)))
          (wordIdAttr sq (newIdStr ep c)))
        (wordIdAttr dq (natStr (pyIndex translations t)))
        (wordIdAttr dq (newIdStr ep c)))
      (m ++ [(newIdStr ep c,
        (pyGetD t wordKey [], pyGetD t grammarKey [], pyGetD t translationKey []))])
      (c + 1) hfresh2
    constructor
    · rw [hrec.1, allocEntries]
      simp [List.append_assoc]
    · rw [hrec.2, List.length_cons]
      omega

/-- C10: the identifier allocator consumes one identifier-sequence number
and records one `{word, grammar, translation}` entry, keyed by the fresh
episode-scoped identifier, for EVERY candidate in the returned candidate
list — the loop never inspects the markup, so surplus candidates whose
word wrapped no occurrence are recorded all the same; consequently the
word maps can hold identifiers that no wrapped span references: for the
segment `"Hallo"` with the single candidate `xyz`, the span mapper emits
no span at all, yet the allocator records one entry and the final markup
(`"Hallo"`, unchanged) contains no `data-word-id` attribute. -/
theorem C10_one_entry_per_candidate :
    (∀ (ep : Str) (ts : List PyDict) (html : Str) (c : Nat),
      (allocLoop ep ts ts html [] c).2.1 = allocEntries ep c ts ∧
      (allocLoop ep ts ts html [] c).2.2 = c + ts.length) ∧
    wrap_words_in_spans "Hallo".data [[(wordKey, "xyz".data)]]
        = Except.ok [HtmlPart.orig "Hallo".data] ∧
    (allocLoop "ep1".data [[(wordKey, "xyz".data)]] [[(wordKey, "xyz".data)]]
        "Hallo".data [] 0).2.1
      = [(newIdStr "ep1".data 0, ("xyz".data, [], []))] ∧
    (allocLoop "ep1".data [[(wordKey, "xyz".data)]] [[(wordKey, "xyz".data)]]
        "Hallo".data [] 0).1 = "Hallo".data ∧
    hasSub "data-word-id".data "Hallo".data = false := by
  refine ⟨?_, rfl, ?_, ?_, ?_⟩
  · intro ep ts html c
    have h := allocLoop_spec ep ts ts html [] c (fun n hn => rfl)
    simpa using h
  · decide
  · decide
  · decide

/-- C4: evaluation of the worked example, exhibiting the identifier bug.
For the segment `"Der Hund rennt schnell und der Hund bellt"` with the
candidate list `[{word: rennt}, {word: Hund}, {word: Hund}]` (served from
the cache), the span mapper wraps exactly the three stated occurrences —
`Hund` (1st, id 1), `rennt` (1st, id 0), `Hund` (2nd, id 2) — but the
rewriting loop computes `old_id` with `translations.index(translation)`,
which returns the FIRST index of an equal dict: both `Hund` candidates
yield old id 1, so the span carrying raw id 2 is never renamed.  The final
markup still contains `data-word-id='2'`, contains no `..._w2`
episode-scoped identifier, while the word map records the unused `..._w2`
entry and the counter consumed three numbers. -/
theorem C4_duplicate_candidate_id_bug :
    wrap_words_in_spans "Der Hund rennt schnell und der Hund bellt".data
        [[(wordKey, "rennt".data)], [(wordKey, "Hund".data)], [(wordKey, "Hund".data)]]
      = Except.ok [HtmlPart.orig "Der".data, HtmlPart.orig " ".data,
          HtmlPart.wrapped 1 "Hund".data, HtmlPart.orig " ".data,
          HtmlPart.wrapped 0 "rennt".data, HtmlPart.orig " ".data,
          HtmlPart.orig "schnell".data, HtmlPart.orig " ".data,
          HtmlPart.orig "und".data, HtmlPart.orig " ".data,
          HtmlPart.orig "der".data, HtmlPart.orig " ".data,
          HtmlPart.wrapped 2 "Hund".data, HtmlPart.orig " ".data,
          HtmlPart.orig "bellt".data]
      ∧ hasSub (wordIdAttr sq (natStr 2))
          (allocLoop "ep1".data
            [[(wordKey, "rennt".data)], [(wordKey, "Hund".data)], [(wordKey, "Hund".data)]]
            [[(wordKey, "rennt".data)], [(wordKey, "Hund".data)], [(wordKey, "Hund".data)]]
            (render [HtmlPart.orig "Der".data, HtmlPart.orig " ".data,
              HtmlPart.wrapped 1 "Hund".data, HtmlPart.orig " ".data,
              HtmlPart.wrapped 0 "rennt".data, HtmlPart.orig " ".data,
              HtmlPart.orig "schnell".data, HtmlPart.orig " ".data,
              HtmlPart.orig "und".data, HtmlPart.orig " ".data,
              HtmlPart.orig "der".data, HtmlPart.orig " ".data,
              HtmlPart.wrapped 2 "Hund".data, HtmlPart.orig " ".data,
              HtmlPart.orig "bellt".data]) [] 0).1 = true
      ∧ hasSub (wordIdAttr sq (newIdStr "ep1".data 2))
          (allocLoop "ep1".data
            [[(wordKey, "rennt".data)], [(wordKey, "Hund".data)], [(wordKey, "Hund".data)]]
            [[(wordKey, "rennt".data)], [(wordKey, "Hund".data)], [(wordKey, "Hund".data)]]
            (render [HtmlPart.orig "Der".data, HtmlPart.orig " ".data,
              HtmlPart.wrapped 1 "Hund".data, HtmlPart.orig " ".data,
              HtmlPart.wrapped 0 "rennt".data, HtmlPart.orig " ".data,
              HtmlPart.orig "schnell".data, HtmlPart.orig " ".data,
              HtmlPart.orig "und".data, HtmlPart.orig " ".data,
              HtmlPart.orig "der".data, HtmlPart.orig " ".data,
              HtmlPart.wrapped 2 "Hund".data, HtmlPart.orig " ".data,
              HtmlPart.orig "bellt".data]) [] 0).1 = false
      ∧ alookup (newIdStr "ep1".data 2)
          (allocLoop "ep1".data
            [[(wordKey, "rennt".data)], [(wordKey, "Hund".data)], [(wordKey, "Hund".data)]]
            [[(wordKey, "rennt".data)], [(wordKey, "Hund".data)], [(wordKey, "Hund".data)]]
            (render [HtmlPart.orig "Der".data, HtmlPart.orig " ".data,
              HtmlPart.wrapped 1 "Hund".data, HtmlPart.orig " ".data,
              HtmlPart.wrapped 0 "rennt".data, HtmlPart.orig " ".data,
              HtmlPart.orig "schnell".data, HtmlPart.orig " ".data,
              HtmlPart.orig "und".data, HtmlPart.orig " ".data,
              HtmlPart.orig "der".data, HtmlPart.orig " ".data,
              HtmlPart.wrapped 2 "Hund".data, HtmlPart.orig " ".data,
              HtmlPart.orig "bellt".data]) [] 0).2.1
        = some ("Hund".data, [], [])
      ∧ (allocLoop "ep1".data
            [[(wordKey, "rennt".data)], [(wordKey, "Hund".data)], [(wordKey, "Hund".data)]]
            [[(wordKey, "rennt".data)], [(wordKey, "Hund".data)], [(wordKey, "Hund".data)]]
            (render [HtmlPart.orig "Der".data, HtmlPart.orig " ".data,
              HtmlPart.wrapped 1 "Hund".data, HtmlPart.orig " ".data,
              HtmlPart.wrapped 0 "rennt".data, HtmlPart.orig " ".data,
              HtmlPart.orig "schnell".data, HtmlPart.orig " ".data,
              HtmlPart.orig "und".data, HtmlPart.orig " ".data,
              HtmlPart.orig "der".data, HtmlPart.orig " ".data,
              HtmlPart.wrapped 2 "Hund".data, HtmlPart.orig " ".data,
              HtmlPart.orig "bellt".data]) [] 0).2.2 = 3 := by
  refine ⟨rfl, ?_, ?_, ?_, ?_⟩
  · decide
  · decide
  · decide
  · decide

end GenIndex
